import Mathlib

-- Verification of the metrics extractor and gateway orchestration of the
-- accident-analysis front end.  The TypeScript sources are embedded shallowly:
-- strings become `List Char` computations, the JavaScript regular expressions
-- used by `parseAnalysisMetrics` are transcribed as executable matchers with
-- the exact engine semantics (leftmost match, lazy dot that does not cross
-- line terminators, greedy digit runs, global non-overlapping counting), and
-- the async service calls become functions of an explicit remote outcome.

namespace Cada

/-- Fraud risk levels from `types.ts` (`'LOW' | 'MEDIUM' | 'HIGH' | 'CRITICAL'`). -/
inductive FraudRisk
  | LOW
  | MEDIUM
  | HIGH
  | CRITICAL
deriving DecidableEq, Repr

/-- `AnalysisMetrics` from `types.ts`.  `severityScore` holds the result of
`parseInt` on a digit run, hence a natural number. -/
structure AnalysisMetrics where
  severityScore : Nat
  fraudRisk : FraudRisk
  replaceCount : Nat
  repairCount : Nat
  primaryImpact : String
deriving DecidableEq, Repr

/-- Line terminators that the JavaScript regex `.` (without the `s` flag)
does not match: LF, CR, LINE SEPARATOR, PARAGRAPH SEPARATOR. -/
def isLineTerm (c : Char) : Bool :=
  c = '\n' || c = '\r' || c = Char.ofNat 0x2028 || c = Char.ofNat 0x2029

/-- Characters matched by the JavaScript regex `.` without the `s` flag. -/
def jsDot (c : Char) : Bool := !isLineTerm c

/-- Whitespace stripped by JavaScript `String.prototype.trim` (the characters
that can actually occur here: ASCII whitespace, NBSP, BOM, line separators). -/
def isJsSpace (c : Char) : Bool :=
  c = ' ' || c = '\t' || c = '\n' || c = '\r' || c = Char.ofNat 0x0b ||
  c = Char.ofNat 0x0c || c = Char.ofNat 0xa0 || c = Char.ofNat 0xfeff ||
  c = Char.ofNat 0x2028 || c = Char.ofNat 0x2029

/-- JavaScript `String.prototype.trim`: drop whitespace from both ends. -/
def jsTrim (l : List Char) : List Char :=
  ((l.dropWhile isJsSpace).reverse.dropWhile isJsSpace).reverse

/-- Decimal value of a digit run, as computed by `parseInt(run, 10)`. -/
def digitsToNat (l : List Char) : Nat :=
  l.foldl (fun a c => a * 10 + (c.toNat - 48)) 0

/-- Leftmost-match search: try the element matcher on every suffix, in order.
This is how a JavaScript regex engine advances its start position. -/
def scanFirst {α : Type} (f : List Char → Option α) : List Char → Option α
  | [] => f []
  | c :: rest =>
    match f (c :: rest) with
    | some a => some a
    | none => scanFirst f rest

/-- Like `scanFirst`, but the scan may only step over characters satisfying
`ok` (used for the lazy `.*?` which cannot cross line terminators). -/
def scanFirstWithin {α : Type} (ok : Char → Bool) (f : List Char → Option α) :
    List Char → Option α
  | [] => f []
  | c :: rest =>
    match f (c :: rest) with
    | some a => some a
    | none => if ok c then scanFirstWithin ok f rest else none

/-- The literal `/10` that must follow the captured digit run. -/
def slashTen : List Char := "/10".data

/-- Matcher for `(\d+)\/10` anchored at the current position: a greedy digit
run followed by the literal `/10`, returning the parsed run.  (Backtracking
inside `\d+` can never help: giving back a digit leaves a digit where `/` is
required, so only the maximal run can match.) -/
def digitRunSlashTen (l : List Char) : Option Nat :=
  let run := l.takeWhile Char.isDigit
  if run.isEmpty then none
  else if slashTen.isPrefixOf (l.drop run.length) then some (digitsToNat run)
  else none

/-- The literal word `Severity` of the severity regex. -/
def sevLit : List Char := "Severity".data

/-- Tail of the severity regex after the literal: `.*?(\d+)\/10`.  The lazy
`.*?` tries the digit matcher first and, on failure, consumes one character,
which must not be a line terminator. -/
def sevTail : List Char → Option Nat
  | [] => none
  | c :: rest =>
    match digitRunSlashTen (c :: rest) with
    | some n => some n
    | none => if jsDot c then sevTail rest else none

/-- The severity regex `/Severity.*?(\d+)\/10/` anchored at one position. -/
def sevMatchAt (l : List Char) : Option Nat :=
  if sevLit.isPrefixOf l then sevTail (l.drop sevLit.length) else none

/-- `markdown.match(/Severity.*?(\d+)\/10/)`, returning the parsed capture. -/
def sevRegexMatch (l : List Char) : Option Nat := scanFirst sevMatchAt l

/-- The literal opening of the primary-impact row regex. -/
def impactPre : List Char := "| Primary Impact Zone | ".data

/-- The literal ` |` that must follow the lazily captured cell text. -/
def spacePipe : List Char := " |".data

/-- The lazy capture `(.*?)` followed by ` \|`: stop as soon as ` |` follows,
otherwise consume one non-line-terminator character into the capture. -/
def impactCapAux : List Char → Option (List Char)
  | [] => none
  | c :: rest =>
    if spacePipe.isPrefixOf (c :: rest) then some []
    else if jsDot c then (impactCapAux rest).map (fun t => c :: t)
    else none

/-- The impact regex `/\| Primary Impact Zone \| (.*?) \|/` at one position. -/
def impactMatchAt (l : List Char) : Option (List Char) :=
  if impactPre.isPrefixOf l then impactCapAux (l.drop impactPre.length) else none

/-- `markdown.match(/\| Primary Impact Zone \| (.*?) \|/)`, returning the
captured cell text. -/
def impactRegexMatch (l : List Char) : Option (List Char) := scanFirst impactMatchAt l

/-- One step of a global (`/g`) regex scan over an alternation of literal
tokens: at each position the first matching alternative is taken and the scan
resumes after the match (`lastIndex` advances past it); otherwise the start
position advances by one.  `fuel` bounds the recursion; each step consumes at
least one character, so `l.length` fuel is always enough. -/
def gScanAux (pats : List (List Char)) : Nat → List Char → Nat
  | 0, _ => 0
  | _ + 1, [] => 0
  | fuel + 1, c :: rest =>
    match pats.find? (fun p => p.isPrefixOf (c :: rest)) with
    | some p => 1 + gScanAux pats fuel ((c :: rest).drop p.length)
    | none => gScanAux pats fuel rest

/-- `(markdown.match(/pat1|pat2|.../g) || []).length` for literal tokens. -/
def countMatches (pats : List (List Char)) (l : List Char) : Nat :=
  gScanAux pats l.length l

/-- The four risk tokens counted for the fraud-risk level. -/
def susTok : List Char := "[SUSPICIOUS]".data

/-- Risk token `[INCONSISTENT]`. -/
def incTok : List Char := "[INCONSISTENT]".data

/-- Risk token `[DETECTED]`. -/
def detTok : List Char := "[DETECTED]".data

/-- Risk token `[FAIL]`. -/
def failTok : List Char := "[FAIL]".data

/-- The alternation `\[SUSPICIOUS\]|\[INCONSISTENT\]|\[DETECTED\]|\[FAIL\]`. -/
def riskToks : List (List Char) := [susTok, incTok, detTok, failTok]

/-- Literal token `[REPLACE]`. -/
def replaceTok : List Char := "[REPLACE]".data

/-- Literal token `[REPAIR]`. -/
def repairTok : List Char := "[REPAIR]".data

/-- `parseAnalysisMetrics` from `App.tsx` (lines 15-54).  The four
extractions are performed in source order; a failed match leaves the default
(`0`, `LOW`, `0`, `0`, `"Unknown"`).  The source wraps the body in
`try/catch`, but none of the string operations it performs can throw, so the
catch branch is unreachable and is not modelled. -/
def parseAnalysisMetrics (markdown : String) : AnalysisMetrics :=
  let md := markdown.data
  let severityScore :=
    match sevRegexMatch md with
    | some n => n
    | none => 0
  let suspiciousCount := countMatches riskToks md
  let fraudRisk :=
    if suspiciousCount ≥ 2 then FraudRisk.HIGH
    else if suspiciousCount = 1 then FraudRisk.MEDIUM
    else FraudRisk.LOW
  let replaceCount := countMatches [replaceTok] md
  let repairCount := countMatches [repairTok] md
  let primaryImpact :=
    match impactRegexMatch md with
    | some t => String.mk (jsTrim t)
    | none => "Unknown"
  { severityScore := severityScore
    fraudRisk := fraudRisk
    replaceCount := replaceCount
    repairCount := repairCount
    primaryImpact := primaryImpact }

/-- A stubbed analysis response following the Markdown structure mandated by
the system instruction in `geminiService.ts`: it contains the row
`| Primary Impact Zone | Rear Bumper Reinforcement |`, the text
`Impact Severity (1-10) | 8/10`, exactly one `[REPLACE]`, exactly two
`[REPAIR]` and exactly one `[INCONSISTENT]` token. -/
def stubDoc : String :=
  "# Incident Physics & Vector Analysis\n| Metric | Analysis |\n| :--- | :--- |\n| Primary Impact Zone | Rear Bumper Reinforcement |\n| Force Vector (Clock) | 6 oclock direct impact |\n| Impact Severity (1-10) | 8/10 |\n| Kinetic Energy Transfer | Absorbed by crash box |\n\n# Fraud & Consistency Audit\n| Check | Finding | Status |\n| :--- | :--- | :--- |\n| Story Consistency | Damage height mismatch | [INCONSISTENT] |\n| Pre-existing Damage | None found | [CLEAR] |\n| Physics Check | Heights align | [PASS] |\n\n# Repair vs. Replace Strategy\n| Component | Action | Technical Justification |\n| :--- | :--- | :--- |\n| Bumper Cover | [REPLACE] | Torn mounting tabs |\n| Trunk Lid | [REPAIR] | Accessible for PDR |\n| Rear Panel | [REPAIR] | Minor cosmetic scrape |\n"

/-- `VehicleDetails` from `types.ts`. -/
structure VehicleDetails where
  year : String
  make : String
  model : String
deriving DecidableEq, Repr

/-- An image attachment (`File` with a MIME type and base64-encodable bytes). -/
structure ImageFile where
  mime : String
  bytes : List Nat
deriving DecidableEq, Repr

/-- `AccidentInput` from `types.ts`. -/
structure AccidentInput where
  vehicle : VehicleDetails
  description : String
  context : String
  images : List ImageFile
deriving DecidableEq, Repr

/-- The fallback string returned by `analyzeAccident` when the response text
is empty or absent (`response.text || "Analysis failed to generate content."`). -/
def analysisFallback : String := "Analysis failed to generate content."

/-- The error thrown by `analyzeAccident` and `identifyVehicleFromImage` when
no credential is configured. -/
def apiKeyMissingMsg : String := "API Key is missing"

/-- `analyzeAccident` from `geminiService.ts` (lines 46-98), as a function of
the configured credential and the outcome of the single remote call.  The
remote text is `Option String` because `response.text` may be undefined;
JavaScript `t || fallback` yields the fallback for both `undefined` and `""`.
A transport failure is logged and rethrown unchanged. -/
def analyzeAccident (apiKey : Option String) (remote : Except String (Option String)) :
    Except String String :=
  match apiKey with
  | none => Except.error apiKeyMissingMsg
  | some _ =>
    match remote with
    | Except.error e => Except.error e
    | Except.ok t =>
      Except.ok (match t with
        | some s => if s = "" then analysisFallback else s
        | none => analysisFallback)

/-- Directional instruction for a right-side impact (`geminiService.ts` line 110). -/
def rightInstr : String :=
  "EXTREMELY IMPORTANT: The damage is on the RIGHT side. You MUST render the RED impact vector on the RIGHT SIDE of the image canvas."

/-- Directional instruction for a left-side impact (line 112). -/
def leftInstr : String :=
  "EXTREMELY IMPORTANT: The damage is on the LEFT side. You MUST render the RED impact vector on the LEFT SIDE of the image canvas."

/-- Directional instruction for a rear impact (line 114). -/
def rearInstr : String :=
  "EXTREMELY IMPORTANT: The damage is on the REAR. You MUST render the RED impact vector at the BOTTOM of the image canvas."

/-- Directional instruction for a front impact (line 116). -/
def frontInstr : String :=
  "EXTREMELY IMPORTANT: The damage is on the FRONT. You MUST render the RED impact vector at the TOP of the image canvas."

/-- JavaScript `String.prototype.toLowerCase`: character-wise lowering (the
keywords searched for are plain ASCII). -/
def toLowerStr (s : String) : String := String.mk (s.data.map Char.toLower)

/-- Substring test on character lists (JavaScript `String.prototype.includes`). -/
def hasSub (needle : List Char) : List Char → Bool
  | [] => needle.isPrefixOf []
  | c :: rest => needle.isPrefixOf (c :: rest) || hasSub needle rest

/-- `descLower.includes(needle)`. -/
def containsSub (hay needle : String) : Bool := hasSub needle.data hay.data

/-- The impact-side hint of `generateImpactDiagram` (`geminiService.ts` lines
106-117): case-insensitive keyword search over the description with a fixed
`if/else if` chain. -/
def locationInstruction (description : String) : String :=
  let descLower := toLowerStr description
  if containsSub descLower "right" || containsSub descLower "passenger" ||
      containsSub descLower "rh" then rightInstr
  else if containsSub descLower "left" || containsSub descLower "driver" ||
      containsSub descLower "lh" then leftInstr
  else if containsSub descLower "rear" || containsSub descLower "back" then rearInstr
  else if containsSub descLower "front" then frontInstr
  else ""

/-- An inline data payload of a response part (`mimeType` plus base64 data). -/
structure InlineData where
  mimeType : String
  data : String
deriving DecidableEq, Repr

/-- One part of a generated response: either text or inline data. -/
structure Part where
  text : Option String
  inlineData : Option InlineData
deriving DecidableEq, Repr

/-- `candidate.content` of a generation response. -/
structure Content where
  parts : List Part
deriving DecidableEq, Repr

/-- One candidate of a generation response. -/
structure Candidate where
  content : Option Content
deriving DecidableEq, Repr

/-- The response shape consumed by `generateImpactDiagram`. -/
structure DiagramResponse where
  candidates : List Candidate
deriving DecidableEq, Repr

/-- The data-URI prefix hard-coded for the diagram image. -/
def dataUriPrefix : String := "data:image/png;base64,"

/-- `response.candidates?.[0]?.content?.parts || []`. -/
def respParts (r : DiagramResponse) : List Part :=
  match r.candidates with
  | [] => []
  | cand :: _ =>
    match cand.content with
    | none => []
    | some ct => ct.parts

/-- The loop of `generateImpactDiagram` (lines 157-162): return the first
part carrying inline data, wrapped in the hard-coded PNG data-URI prefix. -/
def firstInlineImage : List Part → Option String
  | [] => none
  | p :: rest =>
    match p.inlineData with
    | some idata => some (dataUriPrefix ++ idata.data)
    | none => firstInlineImage rest

/-- `generateImpactDiagram` from `geminiService.ts` (lines 100-168), as a
function of the credential and the remote outcome.  A missing credential,
a failed call (caught by the surrounding `try`), and a response without an
inline image all yield `none`; the function never throws. -/
def generateImpactDiagram (apiKey : Option String) (remote : Except String DiagramResponse) :
    Option String :=
  match apiKey with
  | none => none
  | some _ =>
    match remote with
    | Except.error _ => none
    | Except.ok resp => firstInlineImage (respParts resp)

/-- `AppState` from `types.ts`. -/
inductive AppState
  | IDLE
  | ANALYZING
  | COMPLETE
  | ERROR
deriving DecidableEq, Repr

/-- `AnalysisResult` from `types.ts`; the timestamp is an abstract instant. -/
structure AnalysisResult where
  markdown : String
  diagram : Option String
  timestamp : Nat
  metrics : AnalysisMetrics
deriving DecidableEq, Repr

/-- The pieces of React state that `handleAnalysis` settles on. -/
structure AppFlowState where
  appState : AppState
  result : Option AnalysisResult
  error : Option String
deriving DecidableEq, Repr

/-- The fixed user-facing message set on analysis failure (`App.tsx` line 79). -/
def analysisErrorMsg : String :=
  "Failed to analyze the accident data. Please verify your network connection."

/-- `handleAnalysis` from `App.tsx` (lines 56-82), as a function of the two
settled outcomes of `Promise.all`.  The diagram outcome is an `Option`,
because `generateImpactDiagram` catches its own failures and resolves with
`undefined`; only a rejection of the analysis promise reaches the `catch`
branch, which sets the error message and the ERROR state and never sets a
result. -/
def handleAnalysis (analysisOutcome : Except String String)
    (diagramOutcome : Option String) (now : Nat) : AppFlowState :=
  match analysisOutcome with
  | Except.ok markdown =>
    { appState := AppState.COMPLETE
      result := some
        { markdown := markdown
          diagram := diagramOutcome
          timestamp := now
          metrics := parseAnalysisMetrics markdown }
      error := none }
  | Except.error _ =>
    { appState := AppState.ERROR
      result := none
      error := some analysisErrorMsg }

/-- Number of positions of `l` at which the literal `p` occurs; this is the
specification's "count all occurrences anywhere in the document". -/
def occCount (p : List Char) : List Char → Nat
  | [] => 0
  | c :: rest => (if p.isPrefixOf (c :: rest) then 1 else 0) + occCount p rest

/-- The spec's fraud mapping: 0 risk tokens → LOW, exactly 1 → MEDIUM,
2 or more → HIGH. -/
def specFraudMap (n : Nat) : FraudRisk :=
  if n = 0 then FraudRisk.LOW
  else if n = 1 then FraudRisk.MEDIUM
  else FraudRisk.HIGH

lemma occSum_nil (pats : List (List Char)) :
    (pats.map (fun p => occCount p ([] : List Char))).sum = 0 := by
  induction pats with
  | nil => simp
  | cons a tl ih => simp [occCount, ih]

lemma occSum_cons (pats : List (List Char)) (c : Char) (rest : List Char) :
    (pats.map (fun p => occCount p (c :: rest))).sum =
      pats.countP (fun p => p.isPrefixOf (c :: rest)) +
        (pats.map (fun p => occCount p rest)).sum := by
  induction pats with
  | nil => simp
  | cons a tl ih =>
    have ha : occCount a (c :: rest) =
        (if a.isPrefixOf (c :: rest) then 1 else 0) + occCount a rest := by
      simp only [occCount]
    rw [List.map_cons, List.map_cons, List.sum_cons, List.sum_cons, ha,
      List.countP_cons, ih]
    by_cases h : a.isPrefixOf (c :: rest) = true <;> simp [h] <;> omega

lemma sum_map_congr {α : Type} (l : List α) (f g : α → Nat)
    (h : ∀ a ∈ l, f a = g a) : (l.map f).sum = (l.map g).sum := by
  induction l with
  | nil => rfl
  | cons x tl ih =>
    simp only [List.map_cons, List.sum_cons, h x (by simp)]
    rw [ih (fun a ha => h a (by simp [ha]))]

lemma countP_eq_one_of_unique {α : Type} (pred : α → Bool) :
    ∀ (pats : List α), pats.Nodup → ∀ a ∈ pats, pred a = true →
      (∀ b ∈ pats, pred b = true → b = a) → pats.countP pred = 1 := by
  intro pats
  induction pats with
  | nil => intro _ a ha; simp at ha
  | cons x tl ih =>
    intro hnd a ha hpa huniq
    have hndtl : tl.Nodup := (List.nodup_cons.mp hnd).2
    have hxtl : x ∉ tl := (List.nodup_cons.mp hnd).1
    rcases List.mem_cons.mp ha with rfl | hatl
    · have htl0 : tl.countP pred = 0 := by
        apply List.countP_eq_zero.mpr
        intro b hb hpb
        exact hxtl ((huniq b (by simp [hb]) hpb) ▸ hb)
      simp [List.countP_cons, htl0, hpa]
    · have hpx : pred x = false := by
        by_contra hcon
        have : x = a := huniq x (by simp) (by simpa using hcon)
        exact hxtl (this ▸ hatl)
      have : tl.countP pred = 1 :=
        ih hndtl a hatl hpa (fun b hb hpb => huniq b (by simp [hb]) hpb)
      simp [List.countP_cons, hpx, this]

/-- Inside a bracketed token only the first character is `[`, so while the
global scan skips over a matched token no other token can begin. -/
lemma occCount_skip (q qt : List Char) (hq : q = '[' :: qt) :
    ∀ (pt : List Char), '[' ∉ pt → ∀ m : List Char, pt <+: m →
      occCount q m = occCount q (m.drop pt.length) := by
  intro pt
  induction pt with
  | nil => intro _ m _; simp
  | cons a pt' ih =>
    intro hnotin m hpre
    obtain ⟨t, rfl⟩ := hpre
    have hne : ¬('[' = a) := fun h => hnotin (by simp [h.symm])
    have hq0 : q.isPrefixOf (a :: (pt' ++ t)) = false := by
      subst hq
      cases hb : ('[' :: qt).isPrefixOf (a :: (pt' ++ t)) with
      | false => rfl
      | true =>
        have hpr := (List.cons_prefix_cons.mp (List.isPrefixOf_iff_prefix.mp hb)).1
        exact absurd hpr hne
    have hih := ih (fun h => hnotin (by simp [h])) (pt' ++ t) ⟨t, rfl⟩
    calc occCount q ((a :: pt') ++ t)
        = (if q.isPrefixOf (a :: (pt' ++ t)) then 1 else 0) + occCount q (pt' ++ t) := by
          simp [occCount]
      _ = occCount q (pt' ++ t) := by rw [hq0]; simp
      _ = occCount q ((pt' ++ t).drop pt'.length) := hih
      _ = occCount q (((a :: pt') ++ t).drop (a :: pt').length) := by
          simp

/-- A global scan over an alternation of pairwise-prefix-free bracketed
tokens counts exactly the positions at which some token occurs. -/
lemma gScanAux_eq_occSum (pats : List (List Char))
    (hshape : ∀ p ∈ pats, ∃ t, p = '[' :: t ∧ '[' ∉ t)
    (huniq : ∀ p ∈ pats, ∀ q ∈ pats, p <+: q → p = q)
    (hnd : pats.Nodup) :
    ∀ (fuel : Nat) (l : List Char), l.length ≤ fuel →
      gScanAux pats fuel l = (pats.map (fun p => occCount p l)).sum := by
  intro fuel
  induction fuel with
  | zero =>
    intro l hl
    have : l = [] := List.length_eq_zero.mp (Nat.le_zero.mp hl)
    subst this
    simp [gScanAux, occSum_nil]
  | succ fuel ih =>
    intro l hl
    match l with
    | [] => simp [gScanAux, occSum_nil]
    | c :: rest =>
      rw [occSum_cons]
      cases hfind : pats.find? (fun p => p.isPrefixOf (c :: rest)) with
      | none =>
        have hmem := List.find?_eq_none.mp hfind
        have hcz : pats.countP (fun p => p.isPrefixOf (c :: rest)) = 0 :=
          List.countP_eq_zero.mpr (fun p hp => by simpa using hmem p hp)
        have hrest : gScanAux pats fuel rest = (pats.map (fun p => occCount p rest)).sum :=
          ih rest (by simpa using Nat.le_of_succ_le_succ hl)
        simp [gScanAux, hfind, hcz, hrest]
      | some p =>
        have hpmem : p ∈ pats := List.mem_of_find?_eq_some hfind
        have hppre : p.isPrefixOf (c :: rest) = true := by
          simpa using List.find?_some hfind
        obtain ⟨pt, hp, hnotin⟩ := hshape p hpmem
        subst hp
        have hcp : '[' = c ∧ pt <+: rest := by
          have := List.isPrefixOf_iff_prefix.mp hppre
          exact List.cons_prefix_cons.mp this
        have hone : pats.countP (fun q => q.isPrefixOf (c :: rest)) = 1 := by
          apply countP_eq_one_of_unique _ pats hnd _ hpmem hppre
          intro q hq hqpre
          have h1 : q <+: (c :: rest) := List.isPrefixOf_iff_prefix.mp hqpre
          have h2 : ('[' :: pt) <+: (c :: rest) := List.isPrefixOf_iff_prefix.mp hppre
          rcases List.prefix_or_prefix_of_prefix h1 h2 with h | h
          · exact huniq q hq _ hpmem h
          · exact (huniq _ hpmem q hq h).symm
        have hskip : (pats.map (fun q => occCount q rest)).sum =
            (pats.map (fun q => occCount q (rest.drop pt.length))).sum := by
          apply sum_map_congr
          intro q hq
          obtain ⟨qt, hqe, _⟩ := hshape q hq
          exact occCount_skip q qt hqe pt hnotin rest hcp.2
        have hdrop : ((c :: rest).drop ('[' :: pt).length) = rest.drop pt.length := by
          simp
        have hlen : (rest.drop pt.length).length ≤ fuel := by
          simp only [List.length_cons] at hl
          simp only [List.length_drop]
          omega
        have hrest := ih (rest.drop pt.length) hlen
        simp [gScanAux, hfind, hone, hdrop, hrest, hskip]

lemma riskToks_shape : ∀ p ∈ riskToks, ∃ t, p = '[' :: t ∧ '[' ∉ t := by
  intro p hp
  simp only [riskToks, List.mem_cons, List.not_mem_nil, or_false] at hp
  rcases hp with rfl | rfl | rfl | rfl
  · exact ⟨"SUSPICIOUS]".data, by decide, by decide⟩
  · exact ⟨"INCONSISTENT]".data, by decide, by decide⟩
  · exact ⟨"DETECTED]".data, by decide, by decide⟩
  · exact ⟨"FAIL]".data, by decide, by decide⟩

lemma riskToks_prefix_free : ∀ p ∈ riskToks, ∀ q ∈ riskToks, p <+: q → p = q := by
  decide

lemma riskToks_nodup : riskToks.Nodup := by decide

/-- The `/g` count of the four risk tokens is the plain sum of their
occurrence counts. -/
lemma countMatches_riskToks (l : List Char) :
    countMatches riskToks l =
      occCount susTok l + occCount incTok l + occCount detTok l + occCount failTok l := by
  rw [countMatches,
    gScanAux_eq_occSum riskToks riskToks_shape riskToks_prefix_free riskToks_nodup
      l.length l (Nat.le_refl _)]
  simp only [riskToks, List.map_cons, List.map_nil, List.sum_cons, List.sum_nil]
  omega

lemma countMatches_replaceTok (l : List Char) :
    countMatches [replaceTok] l = occCount replaceTok l := by
  rw [countMatches]
  rw [gScanAux_eq_occSum [replaceTok]
    (by intro p hp
        simp only [List.mem_cons, List.not_mem_nil, or_false] at hp
        subst hp
        exact ⟨"REPLACE]".data, by decide, by decide⟩)
    (by decide) (by decide) l.length l (Nat.le_refl _)]
  simp

lemma countMatches_repairTok (l : List Char) :
    countMatches [repairTok] l = occCount repairTok l := by
  rw [countMatches]
  rw [gScanAux_eq_occSum [repairTok]
    (by intro p hp
        simp only [List.mem_cons, List.not_mem_nil, or_false] at hp
        subst hp
        exact ⟨"REPAIR]".data, by decide, by decide⟩)
    (by decide) (by decide) l.length l (Nat.le_refl _)]
  simp

/-- Tail of the first occurrence of `pat` in a document. -/
def firstOccTail (pat : List Char) (l : List Char) : Option (List Char) :=
  scanFirst (fun m => if pat.isPrefixOf m then some (m.drop pat.length) else none) l

/-- Severity extraction as the claim words it: the digit run of the first
occurrence of the word `Severity` followed non-greedily, across arbitrary
intervening characters (line breaks included), by digits and `/10`; default
0.  Because the scan may cross any character, only the first occurrence of
`Severity` can matter. -/
def specSeverityScore (d : String) : Nat :=
  match firstOccTail sevLit d.data with
  | none => 0
  | some tail =>
    match scanFirst digitRunSlashTen tail with
    | some n => n
    | none => 0

/-- Severity extraction as amended: the first occurrence of `Severity`
followed, across intervening non-newline characters only, by digits and
`/10` (later occurrences are tried when an earlier one has no same-line
match); default 0. -/
def specSeverityScoreLine (d : String) : Nat :=
  match scanFirst (fun m =>
      if sevLit.isPrefixOf m then
        scanFirstWithin jsDot digitRunSlashTen (m.drop sevLit.length)
      else none) d.data with
  | some n => n
  | none => 0

/-- Length of the suffix at which the closing ` |` of the impact row is
found, scanning from the capture start across non-newline characters. -/
def rowStopLen (l : List Char) : Option Nat :=
  scanFirstWithin jsDot (fun t => if spacePipe.isPrefixOf t then some t.length else none) l

/-- The first impact-row capture as the claim words it: at the first
position where `| Primary Impact Zone | ` occurs and a closing ` |` can be
reached on the same line, the cell text strictly between them. -/
def specRowCapture (d : String) : Option (List Char) :=
  scanFirst (fun m =>
    if impactPre.isPrefixOf m then
      (rowStopLen (m.drop impactPre.length)).map
        (fun k => (m.drop impactPre.length).take ((m.drop impactPre.length).length - k))
    else none) d.data

/-- The primary impact label as the claim words it: the trimmed capture of
the first matching table row, defaulting to `"Unknown"`. -/
def specPrimaryImpact (d : String) : String :=
  match specRowCapture d with
  | some t => String.mk (jsTrim t)
  | none => "Unknown"

/-- The first part of the response that carries inline data. -/
def firstInlinePart : List Part → Option InlineData
  | [] => none
  | p :: rest =>
    match p.inlineData with
    | some idata => some idata
    | none => firstInlinePart rest

lemma parse_severity (d : String) :
    (parseAnalysisMetrics d).severityScore =
      match sevRegexMatch d.data with
      | some n => n
      | none => 0 := rfl

lemma parse_fraudRisk (d : String) :
    (parseAnalysisMetrics d).fraudRisk =
      (if countMatches riskToks d.data ≥ 2 then FraudRisk.HIGH
       else if countMatches riskToks d.data = 1 then FraudRisk.MEDIUM
       else FraudRisk.LOW) := rfl

lemma parse_replaceCount (d : String) :
    (parseAnalysisMetrics d).replaceCount = countMatches [replaceTok] d.data := rfl

lemma parse_repairCount (d : String) :
    (parseAnalysisMetrics d).repairCount = countMatches [repairTok] d.data := rfl

lemma parse_primaryImpact (d : String) :
    (parseAnalysisMetrics d).primaryImpact =
      match impactRegexMatch d.data with
      | some t => String.mk (jsTrim t)
      | none => "Unknown" := rfl

lemma scanFirst_congr {α : Type} (f g : List Char → Option α)
    (h : ∀ m, f m = g m) : ∀ l, scanFirst f l = scanFirst g l := by
  intro l
  induction l with
  | nil => simp [scanFirst, h]
  | cons c rest ih => simp only [scanFirst, h, ih]

lemma sevTail_eq_scan : ∀ l, sevTail l = scanFirstWithin jsDot digitRunSlashTen l := by
  intro l
  induction l with
  | nil => rfl
  | cons c rest ih =>
    cases hd : digitRunSlashTen (c :: rest) with
    | some n => simp [sevTail, scanFirstWithin, hd]
    | none => simp [sevTail, scanFirstWithin, hd, ih]

lemma sevRegex_eq_specLine (d : String) :
    sevRegexMatch d.data =
      scanFirst (fun m =>
        if sevLit.isPrefixOf m then
          scanFirstWithin jsDot digitRunSlashTen (m.drop sevLit.length)
        else none) d.data := by
  simp only [sevRegexMatch]
  exact scanFirst_congr _ _
    (fun m => by simp only [sevMatchAt, sevTail_eq_scan]) d.data

lemma rowStopLen_le : ∀ (l : List Char) (k : Nat), rowStopLen l = some k → k ≤ l.length := by
  intro l
  induction l with
  | nil =>
    intro k h
    have hfalse : spacePipe.isPrefixOf ([] : List Char) = false := by decide
    simp [rowStopLen, scanFirstWithin, hfalse] at h
  | cons c rest ih =>
    intro k h
    by_cases hsp : spacePipe.isPrefixOf (c :: rest) = true
    · have hstep : rowStopLen (c :: rest) = some ((c :: rest).length) := by
        simp [rowStopLen, scanFirstWithin, hsp]
      rw [hstep] at h
      exact Nat.le_of_eq (Option.some.inj h).symm
    · simp only [Bool.not_eq_true] at hsp
      by_cases hdot : jsDot c = true
      · simp only [rowStopLen, scanFirstWithin, hsp, Bool.false_eq_true, if_false,
          hdot, if_true] at h
        have := ih k h
        simp only [List.length_cons]
        omega
      · simp only [Bool.not_eq_true] at hdot
        simp [rowStopLen, scanFirstWithin, hsp, hdot] at h

lemma impactCapAux_eq : ∀ l : List Char,
    impactCapAux l = (rowStopLen l).map (fun k => l.take (l.length - k)) := by
  intro l
  induction l with
  | nil =>
    have hfalse : spacePipe.isPrefixOf ([] : List Char) = false := by decide
    simp [impactCapAux, rowStopLen, scanFirstWithin, hfalse]
  | cons c rest ih =>
    by_cases hsp : spacePipe.isPrefixOf (c :: rest) = true
    · simp [impactCapAux, rowStopLen, scanFirstWithin, hsp]
    · simp only [Bool.not_eq_true] at hsp
      by_cases hdot : jsDot c = true
      · have hun : rowStopLen (c :: rest) = rowStopLen rest := by
          simp [rowStopLen, scanFirstWithin, hsp, hdot]
        simp only [impactCapAux, hsp, Bool.false_eq_true, if_false, hdot, if_true,
          hun, ih]
        cases hk : rowStopLen rest with
        | none => simp
        | some k =>
          have hkle := rowStopLen_le rest k hk
          simp only [Option.map_some']
          congr 1
          have harith : (c :: rest).length - k = (rest.length - k) + 1 := by
            simp only [List.length_cons]
            omega
          rw [harith, List.take_succ_cons]
      · simp only [Bool.not_eq_true] at hdot
        simp [impactCapAux, rowStopLen, scanFirstWithin, hsp, hdot]

lemma impactMatch_eq_spec (d : String) : impactRegexMatch d.data = specRowCapture d := by
  simp only [impactRegexMatch, specRowCapture]
  exact scanFirst_congr _ _
    (fun m => by
      simp only [impactMatchAt]
      by_cases hp : impactPre.isPrefixOf m = true
      · simp [hp, impactCapAux_eq]
      · simp only [Bool.not_eq_true] at hp
        simp [hp]) d.data

lemma firstInlineImage_eq (ps : List Part) :
    firstInlineImage ps = (firstInlinePart ps).map (fun i => dataUriPrefix ++ i.data) := by
  induction ps with
  | nil => rfl
  | cons p rest ih =>
    cases hp : p.inlineData <;> simp [firstInlineImage, firstInlinePart, hp, ih]

set_option maxRecDepth 100000 in
/-- C1: on the stubbed analysis document the metrics extractor returns
severity 8, fraud risk MEDIUM, one replace, two repairs, and primary impact
"Rear Bumper Reinforcement". -/
theorem C1_end_to_end_metrics :
    parseAnalysisMetrics stubDoc =
      { severityScore := 8
        fraudRisk := FraudRisk.MEDIUM
        replaceCount := 1
        repairCount := 2
        primaryImpact := "Rear Bumper Reinforcement" } := by
  decide

/-- The document that separates the two readings of the severity rule: a
line break stands between `Severity` and the digit run. -/
def sevNlCex : String := "Severity\n8/10"

set_option maxRecDepth 10000 in
/-- C2 counterexample: on `"Severity\n8/10"` the extractor yields severity 0,
while the claimed rule (digits reachable across arbitrary intervening
characters) yields 8 — the regex dot does not cross line terminators. -/
theorem C2_counterexample :
    (parseAnalysisMetrics sevNlCex).severityScore = 0 ∧
      specSeverityScore sevNlCex = 8 := by
  exact ⟨by decide, by decide⟩

/-- C2 as amended: for every document the extracted severity score equals
the digit run of the first occurrence of `Severity` followed, across
intervening non-newline characters, by digits and the literal `/10`
(later occurrences of `Severity` are tried when an earlier one has no
same-line match), and 0 when no such pattern occurs. -/
theorem C2_severity_amended (d : String) :
    (parseAnalysisMetrics d).severityScore = specSeverityScoreLine d := by
  rw [parse_severity, specSeverityScoreLine, sevRegex_eq_specLine]

set_option maxRecDepth 10000 in
/-- C2 amended witness: concrete evaluations on documents with and without a
same-line severity pattern. -/
theorem C2_severity_amended_witness :
    (parseAnalysisMetrics "| Impact Severity (1-10) | 7/10 |").severityScore =
        specSeverityScoreLine "| Impact Severity (1-10) | 7/10 |" ∧
      specSeverityScoreLine "| Impact Severity (1-10) | 7/10 |" = 7 :=
  ⟨C2_severity_amended "| Impact Severity (1-10) | 7/10 |", by decide⟩

/-- C3: the fraud risk is the spec mapping (0 → LOW, 1 → MEDIUM, ≥2 → HIGH)
of the summed occurrence counts of the four risk tokens anywhere in the
document, and it is always one of LOW, MEDIUM, HIGH — never CRITICAL. -/
theorem C3_fraud_risk (d : String) :
    (parseAnalysisMetrics d).fraudRisk =
      specFraudMap (occCount susTok d.data + occCount incTok d.data +
        occCount detTok d.data + occCount failTok d.data) ∧
    ((parseAnalysisMetrics d).fraudRisk = FraudRisk.LOW ∨
      (parseAnalysisMetrics d).fraudRisk = FraudRisk.MEDIUM ∨
      (parseAnalysisMetrics d).fraudRisk = FraudRisk.HIGH) := by
  rw [parse_fraudRisk, countMatches_riskToks]
  generalize (occCount susTok d.data + occCount incTok d.data +
    occCount detTok d.data + occCount failTok d.data) = n
  constructor
  · simp only [specFraudMap]
    split_ifs <;> first | rfl | omega
  · split_ifs <;> simp

/-- The document showing that a later matching impact row does not win: an
earlier row captures `A` even though the claimed substring is present. -/
def impactCex : String :=
  "| Primary Impact Zone | A | Primary Impact Zone | Rear Bumper |"

set_option maxRecDepth 10000 in
/-- C4 counterexample: `impactCex` contains the substring
`| Primary Impact Zone | Rear Bumper |`, yet the extractor reports `A` —
the first matching row, not the claimed one, provides the label. -/
theorem C4_counterexample :
    hasSub ("| Primary Impact Zone | Rear Bumper |").data impactCex.data = true ∧
      (parseAnalysisMetrics impactCex).primaryImpact = "A" := by
  exact ⟨by decide, by decide⟩

/-- C4 as amended: the extracted label is the trimmed capture of the first
row matching `| Primary Impact Zone | <text> |` (default `"Unknown"`); in
particular the label is `"Rear Bumper"` whenever the first such row
captures exactly `Rear Bumper`. -/
theorem C4_primary_impact_amended (d : String) :
    (parseAnalysisMetrics d).primaryImpact = specPrimaryImpact d ∧
    (specRowCapture d = some ("Rear Bumper").data →
      (parseAnalysisMetrics d).primaryImpact = "Rear Bumper") := by
  have h := impactMatch_eq_spec d
  constructor
  · rw [parse_primaryImpact, h, specPrimaryImpact]
  · intro hcap
    rw [parse_primaryImpact, h, hcap]
    decide

set_option maxRecDepth 10000 in
/-- C4 amended witness: on a document whose first matching row is the
`Rear Bumper` one, the label is `"Rear Bumper"`. -/
theorem C4_primary_impact_amended_witness :
    (parseAnalysisMetrics "| Primary Impact Zone | Rear Bumper |").primaryImpact =
      "Rear Bumper" :=
  (C4_primary_impact_amended "| Primary Impact Zone | Rear Bumper |").2 (by decide)

/-- C5 counterexample: with a credential configured and an empty remote
response text, `analyzeAccident` does not raise — it resolves with the
fixed placeholder string. -/
theorem C5_counterexample :
    analyzeAccident (some "key") (Except.ok (some "")) =
      Except.ok analysisFallback := rfl

/-- C5 as amended: an empty (or absent) response text yields the fallback
string `"Analysis failed to generate content."` rather than an error;
`analyzeAccident` fails only when the credential is missing or the remote
call itself raises, and returns the response text verbatim otherwise. -/
theorem C5_empty_response_amended (k e t : String)
    (rem : Except String (Option String)) :
    analyzeAccident none rem = Except.error apiKeyMissingMsg ∧
    analyzeAccident (some k) (Except.error e) = Except.error e ∧
    analyzeAccident (some k) (Except.ok none) = Except.ok analysisFallback ∧
    analyzeAccident (some k) (Except.ok (some "")) = Except.ok analysisFallback ∧
    (t ≠ "" → analyzeAccident (some k) (Except.ok (some t)) = Except.ok t) := by
  refine ⟨rfl, rfl, rfl, rfl, ?_⟩
  intro ht
  simp [analyzeAccident, ht]

/-- C5 amended witness: a non-empty response text is returned verbatim. -/
theorem C5_empty_response_amended_witness :
    analyzeAccident (some "key") (Except.ok (some "report")) = Except.ok "report" :=
  (C5_empty_response_amended "key" "e" "report" (Except.ok none)).2.2.2.2 (by decide)

/-- C6: the submit flow ends in ERROR (with no result) exactly when the
analysis outcome is an error; when the analysis succeeds and the diagram
call raises or carries no image, the flow still completes with the diagram
field unset; a raising diagram call always yields no image. -/
theorem C6_flow_error_iff (aRes : Except String String) (key : Option String)
    (rem : Except String DiagramResponse) (t : Nat) :
    ((handleAnalysis aRes (generateImpactDiagram key rem) t).appState = AppState.ERROR ↔
      ∃ e, aRes = Except.error e) ∧
    ((handleAnalysis aRes (generateImpactDiagram key rem) t).appState = AppState.ERROR →
      (handleAnalysis aRes (generateImpactDiagram key rem) t).result = none) ∧
    (∀ md, aRes = Except.ok md → generateImpactDiagram key rem = none →
      handleAnalysis aRes (generateImpactDiagram key rem) t =
        { appState := AppState.COMPLETE
          result := some
            { markdown := md
              diagram := none
              timestamp := t
              metrics := parseAnalysisMetrics md }
          error := none }) ∧
    (∀ e, rem = Except.error e → generateImpactDiagram key rem = none) := by
  refine ⟨?_, ?_, ?_, ?_⟩
  · cases aRes <;> simp [handleAnalysis]
  · cases aRes <;> simp [handleAnalysis]
  · intro md hmd hdg
    subst hmd
    rw [hdg]
    rfl
  · intro e he
    subst he
    cases key <;> simp [generateImpactDiagram]

/-- C6 witness: a failing analysis call ends in ERROR; a successful analysis
with a raising diagram call ends in COMPLETE. -/
theorem C6_flow_error_iff_witness :
    (handleAnalysis (Except.error "boom")
        (generateImpactDiagram (some "key") (Except.error "down")) 0).appState =
      AppState.ERROR ∧
    (handleAnalysis (Except.ok "report")
        (generateImpactDiagram (some "key") (Except.error "down")) 0).appState =
      AppState.COMPLETE := by
  constructor
  · exact (C6_flow_error_iff (Except.error "boom") (some "key")
      (Except.error "down") 0).1.mpr ⟨"boom", rfl⟩
  · have hdg := (C6_flow_error_iff (Except.ok "report") (some "key")
      (Except.error "down") 0).2.2.2 "down" rfl
    have hc := (C6_flow_error_iff (Except.ok "report") (some "key")
      (Except.error "down") 0).2.2.1 "report" rfl hdg
    rw [hc]

/-- The document whose reported score exceeds the claimed 0–10 range. -/
def sevOverCex : String := "Severity 11/10"

set_option maxRecDepth 10000 in
/-- C7 counterexample: on `"Severity 11/10"` the extractor reports severity
11, outside the claimed range 0–10. -/
theorem C7_counterexample :
    10 < (parseAnalysisMetrics sevOverCex).severityScore := by
  decide

/-- C7 as amended: the severity score is a non-negative integer (it can
exceed 10 when the document itself reports a larger numerator over 10), the
counts are non-negative integers, and the fraud risk is always one of LOW,
MEDIUM, HIGH — never CRITICAL. -/
theorem C7_metrics_invariants (d : String) :
    (parseAnalysisMetrics d).fraudRisk = FraudRisk.LOW ∨
    (parseAnalysisMetrics d).fraudRisk = FraudRisk.MEDIUM ∨
    (parseAnalysisMetrics d).fraudRisk = FraudRisk.HIGH := by
  rw [parse_fraudRisk]
  split_ifs <;> simp

/-- C8: the metrics extractor is a pure function of the Markdown text —
repeated runs on the same document agree definitionally, and the metrics
stored in any composed result are exactly the extractor applied to that
result's own markdown. -/
theorem C8_extractor_pure (d : String) :
    parseAnalysisMetrics d = parseAnalysisMetrics d ∧
    (∀ (aRes : Except String String) (dOut : Option String) (t : Nat)
        (r : AnalysisResult),
      (handleAnalysis aRes dOut t).result = some r →
      r.metrics = parseAnalysisMetrics r.markdown) := by
  refine ⟨rfl, ?_⟩
  intro aRes dOut t r h
  cases aRes with
  | ok md =>
    simp only [handleAnalysis, Option.some.injEq] at h
    rw [← h]
  | error e => simp [handleAnalysis] at h

/-- C8 witness: the stored metrics of a concrete composed result equal the
extractor re-run on its markdown. -/
theorem C8_extractor_pure_witness :
    (AnalysisResult.mk "doc" none 0 (parseAnalysisMetrics "doc")).metrics =
      parseAnalysisMetrics
        (AnalysisResult.mk "doc" none 0 (parseAnalysisMetrics "doc")).markdown :=
  (C8_extractor_pure "doc").2 (Except.ok "doc") none 0 _ rfl

/-- C9: the impact-side hint follows the fixed precedence right-side over
left-side over rear over front on the lowercased description, and in
particular any description containing both `right` and `rear` receives the
right-side instruction. -/
theorem C9_impact_side_precedence (d : String) :
    ((containsSub (toLowerStr d) "right" || containsSub (toLowerStr d) "passenger" ||
        containsSub (toLowerStr d) "rh") = true → locationInstruction d = rightInstr) ∧
    ((containsSub (toLowerStr d) "right" || containsSub (toLowerStr d) "passenger" ||
        containsSub (toLowerStr d) "rh") = false →
      (containsSub (toLowerStr d) "left" || containsSub (toLowerStr d) "driver" ||
        containsSub (toLowerStr d) "lh") = true → locationInstruction d = leftInstr) ∧
    ((containsSub (toLowerStr d) "right" || containsSub (toLowerStr d) "passenger" ||
        containsSub (toLowerStr d) "rh") = false →
      (containsSub (toLowerStr d) "left" || containsSub (toLowerStr d) "driver" ||
        containsSub (toLowerStr d) "lh") = false →
      (containsSub (toLowerStr d) "rear" || containsSub (toLowerStr d) "back") = true →
      locationInstruction d = rearInstr) ∧
    ((containsSub (toLowerStr d) "right" || containsSub (toLowerStr d) "passenger" ||
        containsSub (toLowerStr d) "rh") = false →
      (containsSub (toLowerStr d) "left" || containsSub (toLowerStr d) "driver" ||
        containsSub (toLowerStr d) "lh") = false →
      (containsSub (toLowerStr d) "rear" || containsSub (toLowerStr d) "back") = false →
      containsSub (toLowerStr d) "front" = true → locationInstruction d = frontInstr) ∧
    ((containsSub (toLowerStr d) "right" || containsSub (toLowerStr d) "passenger" ||
        containsSub (toLowerStr d) "rh") = false →
      (containsSub (toLowerStr d) "left" || containsSub (toLowerStr d) "driver" ||
        containsSub (toLowerStr d) "lh") = false →
      (containsSub (toLowerStr d) "rear" || containsSub (toLowerStr d) "back") = false →
      containsSub (toLowerStr d) "front" = false → locationInstruction d = "") ∧
    (containsSub (toLowerStr d) "right" = true → containsSub (toLowerStr d) "rear" = true →
      locationInstruction d = rightInstr) := by
  refine ⟨?_, ?_, ?_, ?_, ?_, ?_⟩
  · intro h1
    simp [locationInstruction, h1]
  · intro h1 h2
    simp [locationInstruction, h1, h2]
  · intro h1 h2 h3
    simp [locationInstruction, h1, h2, h3]
  · intro h1 h2 h3 h4
    simp [locationInstruction, h1, h2, h3, h4]
  · intro h1 h2 h3 h4
    simp [locationInstruction, h1, h2, h3, h4]
  · intro hr hre
    simp [locationInstruction, hr]

/-- C9 witness: a description containing both `right` and `rear` receives
the right-side instruction. -/
theorem C9_impact_side_precedence_witness :
    locationInstruction "Impact on the right rear quarter panel" = rightInstr :=
  (C9_impact_side_precedence "Impact on the right rear quarter panel").2.2.2.2.2
    (by decide) (by decide)

/-- C10: whenever the diagram call returns an image, the returned string is
the literal prefix `data:image/png;base64,` concatenated with the raw data
of the first inline-data part of the response — the part's own MIME type is
never consulted; and with no inline part no image is returned. -/
theorem C10_diagram_data_uri (k : String) (resp : DiagramResponse) :
    (∀ idata, firstInlinePart (respParts resp) = some idata →
      generateImpactDiagram (some k) (Except.ok resp) =
        some (dataUriPrefix ++ idata.data)) ∧
    (firstInlinePart (respParts resp) = none →
      generateImpactDiagram (some k) (Except.ok resp) = none) := by
  constructor
  · intro idata h
    simp [generateImpactDiagram, firstInlineImage_eq, h]
  · intro h
    simp [generateImpactDiagram, firstInlineImage_eq, h]

/-- C10 witness: a part whose inline data reports MIME `image/jpeg` is still
wrapped in the PNG data-URI prefix. -/
theorem C10_diagram_data_uri_witness :
    generateImpactDiagram (some "key")
        (Except.ok (DiagramResponse.mk
          [Candidate.mk (some (Content.mk
            [Part.mk none (some (InlineData.mk "image/jpeg" "QUJDRA"))]))])) =
      some "data:image/png;base64,QUJDRA" := by
  have h := (C10_diagram_data_uri "key"
    (DiagramResponse.mk
      [Candidate.mk (some (Content.mk
        [Part.mk none (some (InlineData.mk "image/jpeg" "QUJDRA"))]))])).1
    (InlineData.mk "image/jpeg" "QUJDRA") (by rfl)
  simpa using h

end Cada
